import Mathlib

/-!
# polygonsUnion: a shallow embedding of `src/Functions/polygonsUnion.cpp`

The file embeds `FunctionPolygonsUnion<Point>` (type validation, the per-row loop of
`executeImpl`, the placeholder seed and its discard) and states the properties of the
specification over that embedding.

* Coordinates are a type parameter `F` (the source is a template over the point type and
  never computes with coordinates itself).
* `boost::geometry::correct` and `boost::geometry::union_` are third-party code; they are
  the fields of `Geometry`, arbitrary functions, and every theorem quantifies over them.
* The column parser and the serializer live in `Functions/geometryConverters.h`; they are
  modelled from the specification (sections 4.1 and 4.6).
* Every run carries a ghost log `calls` of the collaborator calls it performed, in order.
-/

namespace DB

/-! ## Data types and exceptions -/

/-- Modelled from the spec: the data types of `DataTypes/` (section 6), nested sequences and
coordinate pairs over double-precision numbers; every other type is `Other`. -/
inductive DataType where
  | Float64 : DataType
  | Array (nested : DataType) : DataType
  | Tuple (elems : List DataType) : DataType
  | Other (typeName : String) : DataType

mutual
/-- Modelled from the spec: the comparison `IDataType::equals` of `DataTypes/`, whether a
declared type matches a shape: arrays compare their nested types, tuples compare their
element types position by position, every other type only equals itself. -/
def DataType.equals : DataType → DataType → Bool
  | .Float64, .Float64 => true
  | .Array a, .Array b => DataType.equals a b
  | .Tuple as, .Tuple bs => DataType.equalsElems as bs
  | .Other m, .Other n => m == n
  | _, _ => false
/-- Modelled from the spec: the element-wise part of the comparison of two tuple types (the
sizes must agree). -/
def DataType.equalsElems : List DataType → List DataType → Bool
  | [], [] => true
  | a :: as, b :: bs => DataType.equals a b && DataType.equalsElems as bs
  | _, _ => false
end

/-- Error codes of `ErrorCodes`; the source declares `BAD_ARGUMENTS` only (line 24), every
other code is `OTHER`. -/
inductive ErrorCode where
  | BAD_ARGUMENTS : ErrorCode
  | OTHER (code : Int) : ErrorCode
deriving DecidableEq, Repr

/-- Ways a call can fail. -/
inductive Fault where
  /-- A `DB::Exception(message, code)`. -/
  | exception (message : String) (code : ErrorCode) : Fault
  /-- An exception thrown inside the geometry library. -/
  | library (what : String) : Fault
  /-- A read of a row the column does not hold (undefined in C++). -/
  | rowOutOfRange : Fault
  /-- The call `erase(begin())` on an empty vector (undefined in C++). -/
  | eraseOnEmpty : Fault
deriving DecidableEq, Repr

/-! ## Geometry -/

/-- A point: a pair of coordinates. -/
abbrev Point (F : Type) := F × F

/-- A ring: a sequence of points. -/
abbrev Ring (F : Type) := List (Point F)

/-- A polygon of `boost::geometry::model::polygon`: an outer ring and the hole rings. -/
structure Polygon (F : Type) where
  outer : Ring F
  inners : List (Ring F)
deriving DecidableEq, Repr

/-- A multi-polygon: a vector of polygons. -/
abbrev MultiPolygon (F : Type) := List (Polygon F)

/-- One row of a column of type `Array(Array(Array(Tuple(Float64, Float64))))`. -/
abbrev Row (F : Type) := List (List (List (F × F)))

/-- The geometry library at one point type: the value-initialised point, `correct`, and
`union_`, which receives the two operands and the output collection and returns the output
collection after the call (or throws). -/
structure Geometry (F : Type) where
  origin : Point F
  correct : MultiPolygon F → MultiPolygon F
  union_ : MultiPolygon F → MultiPolygon F → MultiPolygon F → Except String (MultiPolygon F)

/-- The two instantiations registered by `registerFunctionPolygonsUnion`. -/
inductive PointKind where
  | CartesianPoint : PointKind
  | GeographicPoint : PointKind
deriving DecidableEq, Repr

/-- The static member `name` of each instantiation (lines 122-126). -/
def name : PointKind → String
  | .CartesianPoint => "polygonsUnionCartesian"
  | .GeographicPoint => "polygonsUnionGeographic"

/-! ## Arguments -/

/-- Modelled from the spec: `ColumnWithTypeAndName` of `Core/` (section 6), an argument with
its column (the rows), its declared type and its name. The rows are only read after the
declared type has been checked, so they are typed as multi-polygon rows. -/
structure ColumnWithTypeAndName (F : Type) where
  column : List (Row F)
  type : DataType
  name : String

/-- The argument vector; `getNumberOfArguments` is 2 and the function is not variadic. -/
structure ColumnsWithTypeAndName (F : Type) where
  first : ColumnWithTypeAndName F
  second : ColumnWithTypeAndName F

/-- Number of arguments (line 50). -/
def getNumberOfArguments : Nat := 2

/-- Variadic flag (line 45). -/
def isVariadic : Bool := false

/-- Constants are unwrapped by the framework (line 116). -/
def useDefaultImplementationForConstants : Bool := true

/-- The type `Array(Array(Array(Tuple(Float64, Float64))))` built at lines 63-71. -/
def desired : DataType :=
  .Array (.Array (.Array (.Tuple [.Float64, .Float64])))

/-- Modelled from the spec: `DataTypeCustomMultiPolygonSerialization::nestedDataType()`
(declared in `DataTypes/DataTypeCustomGeo.h`); the output column has the same
nested-sequence type as the inputs. -/
def nestedDataType : DataType :=
  .Array (.Array (.Array (.Tuple [.Float64, .Float64])))

/-- Return type resolution `getReturnTypeImpl` (lines 55-58): the argument types are ignored. -/
def getReturnTypeImpl (_arguments : List DataType) : Except Fault DataType :=
  .ok nestedDataType

/-- Text of the exception before the function name. -/
def messageHead (which : String) : String :=
  "The type of the " ++ which ++ " argument of function "

/-- Text of the exception after the function name. -/
def messageTail : String :=
  " must be Array(Array(Array(Tuple(Float64, Float64))))"

/-- Validation `checkInputType` (lines 60-77). -/
def checkInputType {F : Type} (kind : PointKind) (arguments : ColumnsWithTypeAndName F) :
    Except Fault Unit :=
  if !desired.equals arguments.first.type then
    .error (.exception (messageHead "first" ++ name kind ++ messageTail) .BAD_ARGUMENTS)
  else if !desired.equals arguments.second.type then
    .error (.exception (messageHead "second" ++ name kind ++ messageTail) .BAD_ARGUMENTS)
  else
    .ok ()

/-! ## Decoder and encoder -/

/-- Modelled from the spec: the column parser of `Functions/geometryConverters.h`
(section 4.1); it holds the column it reads from. -/
structure MultiPolygonFromColumnParser (F : Type) where
  col : List (Row F)

/-- Modelled from the spec: `makeGeometryFromColumnParser` of `geometryConverters.h`, for an
argument of the multi-polygon type. -/
def makeGeometryFromColumnParser {F : Type} (argument : ColumnWithTypeAndName F) :
    MultiPolygonFromColumnParser F :=
  ⟨argument.column⟩

/-- Modelled from the spec: `createContainer` of `geometryConverters.h`, an empty
multi-polygon to decode into. -/
def createContainer {F : Type} (_columnParser : MultiPolygonFromColumnParser F) : MultiPolygon F :=
  []

/-- Modelled from the spec: decoding of the middle level (section 4.1), ring 0 is the outer
ring and the remaining rings are holes; a polygon without rings has the wrong arity. -/
def decodePolygon {F : Type} : List (Ring F) → Except Fault (Polygon F)
  | [] => .error (.exception "FormatError: a polygon needs an outer ring" .BAD_ARGUMENTS)
  | outer :: inners => .ok ⟨outer, inners⟩

/-- Modelled from the spec: decoding of the outer level (section 4.1), polygon by polygon, the
first malformed polygon failing the row. -/
def decode {F : Type} : Row F → Except Fault (MultiPolygon F)
  | [] => .ok []
  | rings :: rest =>
    match decodePolygon rings with
    | .error e => .error e
    | .ok polygon =>
      match decode rest with
      | .error e => .error e
      | .ok polygons => .ok (polygon :: polygons)

/-- Modelled from the spec: `get(parser, container, i)` of `geometryConverters.h`, row `i` of
the column decoded into the container, whose former content is replaced. -/
def get {F : Type} (parser : MultiPolygonFromColumnParser F) (_container : MultiPolygon F)
    (i : Nat) : Except Fault (MultiPolygon F) :=
  match parser.col[i]? with
  | none => .error .rowOutOfRange
  | some row => decode row

/-- Modelled from the spec: encoding of a polygon (section 4.6), outer ring first, holes after. -/
def encodePolygon {F : Type} (polygon : Polygon F) : List (Ring F) :=
  polygon.outer :: polygon.inners

/-- Modelled from the spec: encoding of a multi-polygon (section 4.6), the inverse of `decode`. -/
def encode {F : Type} (polygons : MultiPolygon F) : Row F :=
  polygons.map encodePolygon

/-- Modelled from the spec: `MultiPolygonSerializer` of `geometryConverters.h`, the output
batch built so far. -/
structure MultiPolygonSerializer (F : Type) where
  rows : List (Row F)

/-- Modelled from the spec: `MultiPolygonSerializer::add`, one encoded entry appended to the
output batch. -/
def MultiPolygonSerializer.add {F : Type} (serializer : MultiPolygonSerializer F)
    (polygons : MultiPolygon F) : MultiPolygonSerializer F :=
  ⟨serializer.rows ++ [encode polygons]⟩

/-- Modelled from the spec: `MultiPolygonSerializer::finalize`, the output column. -/
def MultiPolygonSerializer.finalize {F : Type} (serializer : MultiPolygonSerializer F) :
    List (Row F) :=
  serializer.rows

/-! ## The loop of `executeImpl` -/

/-- The polygon `{{{}}}` of line 99: one ring holding one value-initialised point, no holes. -/
def placeholder {F : Type} (G : Geometry F) : Polygon F :=
  ⟨[G.origin], []⟩

/-- The call `v.erase(v.begin())` of line 108. -/
def eraseBegin {α : Type} : List α → Except Fault (List α)
  | [] => .error .eraseOnEmpty
  | _ :: rest => .ok rest

/-- A collaborator call, for the ghost log: which call, on which argument, for which row. -/
inductive Call where
  | get (argument row : Nat) : Call
  | correct (argument row : Nat) : Call
  | union_ (row : Nat) : Call
  | erase (row : Nat) : Call
  | add (row : Nat) : Call
deriving DecidableEq, Repr

/-- What a piece of code did: the calls it performed, and its result or failure. -/
structure Outcome (α : Type) where
  calls : List Call
  result : Except Fault α

/-- The variables that live across iterations of the loop (lines 83, 86, 88). -/
structure LoopState (F : Type) where
  first_container : MultiPolygon F
  second_container : MultiPolygon F
  serializer : MultiPolygonSerializer F

/-- The calls of one complete iteration. -/
def rowCalls (i : Nat) : List Call :=
  [.get 0 i, .get 1 i, .correct 0 i, .correct 1 i, .union_ i, .erase i, .add i]

/-- One iteration of the loop (lines 94-110). -/
def loopBody {F : Type} (G : Geometry F)
    (firstParser secondParser : MultiPolygonFromColumnParser F)
    (i : Nat) (s : LoopState F) : Outcome (LoopState F) :=
  match get firstParser s.first_container i with
  | .error e => ⟨[.get 0 i], .error e⟩
  | .ok first_container =>
    match get secondParser s.second_container i with
    | .error e => ⟨[.get 0 i, .get 1 i], .error e⟩
    | .ok second_container =>
      let first := first_container
      let second := second_container
      let polygons_union : MultiPolygon F := [placeholder G]
      let first := G.correct first
      let second := G.correct second
      match G.union_ first second polygons_union with
      | .error what =>
        ⟨[.get 0 i, .get 1 i, .correct 0 i, .correct 1 i, .union_ i], .error (.library what)⟩
      | .ok polygons_union =>
        match eraseBegin polygons_union with
        | .error e =>
          ⟨[.get 0 i, .get 1 i, .correct 0 i, .correct 1 i, .union_ i, .erase i], .error e⟩
        | .ok polygons_union =>
          ⟨rowCalls i,
            .ok ⟨first_container, second_container, s.serializer.add polygons_union⟩⟩

/-- The loop `for (i = ...; i < input_rows_count; i++)`, with `remaining` iterations to go
from index `i`. -/
def forLoop {F : Type} (G : Geometry F)
    (firstParser secondParser : MultiPolygonFromColumnParser F) :
    (remaining : Nat) → (i : Nat) → LoopState F → Outcome (LoopState F)
  | 0, _, s => ⟨[], .ok s⟩
  | remaining + 1, i, s =>
    match loopBody G firstParser secondParser i s with
    | ⟨calls, .error e⟩ => ⟨calls, .error e⟩
    | ⟨calls, .ok s1⟩ =>
      let rest := forLoop G firstParser secondParser remaining (i + 1) s1
      ⟨calls ++ rest.calls, rest.result⟩

/-- The function `executeImpl` (lines 79-114). -/
def executeImpl {F : Type} (kind : PointKind) (G : Geometry F)
    (arguments : ColumnsWithTypeAndName F) (input_rows_count : Nat) :
    Outcome (List (Row F)) :=
  match checkInputType kind arguments with
  | .error e => ⟨[], .error e⟩
  | .ok _ =>
    let firstParser := makeGeometryFromColumnParser arguments.first
    let first_container := createContainer firstParser
    let secondParser := makeGeometryFromColumnParser arguments.second
    let second_container := createContainer secondParser
    let serializer : MultiPolygonSerializer F := ⟨[]⟩
    match forLoop G firstParser secondParser input_rows_count 0
        ⟨first_container, second_container, serializer⟩ with
    | ⟨calls, .error e⟩ => ⟨calls, .error e⟩
    | ⟨calls, .ok s⟩ => ⟨calls, .ok s.serializer.finalize⟩


/-! ## Row-level reading of the loop -/

/-- The union of two multi-polygons as lines 99-108 obtain it: the output collection is seeded
with the placeholder, handed to `union_`, and its first element is erased. -/
def unionOf {F : Type} (G : Geometry F) (first second : MultiPolygon F) :
    Except Fault (MultiPolygon F) :=
  match G.union_ first second [placeholder G] with
  | .error what => .error (.library what)
  | .ok polygons_union => eraseBegin polygons_union

/-- The row pipeline in the words of the specification (section 2):
Decode(A), Decode(B), Normalize(A), Normalize(B), UnionEngine(A, B) with the discard of the
seed, Encode. -/
def rowPipeline {F : Type} (G : Geometry F) (A B : Row F) : Except Fault (Row F) :=
  match decode A with
  | .error e => .error e
  | .ok a =>
    match decode B with
    | .error e => .error e
    | .ok b =>
      match unionOf G (G.correct a) (G.correct b) with
      | .error e => .error e
      | .ok polygons => .ok (encode polygons)

/-- The entry of row `i`, read through the two parsers in the order of the loop body. -/
def rowEntry {F : Type} (G : Geometry F)
    (firstParser secondParser : MultiPolygonFromColumnParser F) (i : Nat) :
    Except Fault (Row F) :=
  match get firstParser [] i with
  | .error e => .error e
  | .ok a =>
    match get secondParser [] i with
    | .error e => .error e
    | .ok b =>
      match unionOf G (G.correct a) (G.correct b) with
      | .error e => .error e
      | .ok polygons => .ok (encode polygons)

/-- The entries of `remaining` rows from row `i` on, the first failing row failing them all. -/
def rowsFrom {F : Type} (G : Geometry F)
    (first second : MultiPolygonFromColumnParser F) :
    (remaining : Nat) → (i : Nat) → Except Fault (List (Row F))
  | 0, _ => .ok []
  | remaining + 1, i =>
    match rowEntry G first second i with
    | .error e => .error e
    | .ok entry =>
      match rowsFrom G first second remaining (i + 1) with
      | .error e => .error e
      | .ok entries => .ok (entry :: entries)

/-- An engine on integer coordinates: `correct` changes nothing and `union_` appends the
polygons of both operands to the output collection. -/
def appendEngine : Geometry Int :=
  ⟨(0, 0), fun polygons => polygons, fun first second out => .ok (out ++ (first ++ second))⟩

/-- The square of scenario 1 of the specification, as a row. -/
def square : Row Int :=
  [[[(0, 0), (2, 0), (2, 2), (0, 2), (0, 0)]]]

/-- The disjoint square of scenario 2 of the specification, as a row. -/
def farSquare : Row Int :=
  [[[(10, 10), (12, 10), (12, 12), (10, 12), (10, 10)]]]

/-- The decoded `square`. -/
def squarePolygons : MultiPolygon Int :=
  [⟨[(0, 0), (2, 0), (2, 2), (0, 2), (0, 0)], []⟩]

/-- The decoded `farSquare`. -/
def farSquarePolygons : MultiPolygon Int :=
  [⟨[(10, 10), (12, 10), (12, 12), (10, 12), (10, 10)], []⟩]

/-- A column of the multi-polygon type. -/
def geoColumn (rows : List (Row Int)) : ColumnWithTypeAndName Int :=
  ⟨rows, desired, "polygons"⟩

/-- Two well-typed columns of two rows each. -/
def goodBatch : ColumnsWithTypeAndName Int :=
  ⟨geoColumn [square, []], geoColumn [farSquare, square]⟩

/-- A batch whose first argument is declared `Array(Float64)`. -/
def badBatch : ColumnsWithTypeAndName Int :=
  ⟨⟨[square, []], .Array .Float64, "numbers"⟩, geoColumn [farSquare, square]⟩

/-- A batch whose second argument is declared `UInt8`. -/
def badSecondBatch : ColumnsWithTypeAndName Int :=
  ⟨geoColumn [square, []], ⟨[farSquare, square], .Other "UInt8", "byte"⟩⟩

/-! ## Lemmas -/

theorem equals_desired_iff (t : DataType) : desired.equals t = true ↔ t = desired := by
  unfold desired
  constructor
  · intro h
    cases t with
    | Array t1 =>
      cases t1 with
      | Array t2 =>
        cases t2 with
        | Array t3 =>
          cases t3 with
          | Tuple es =>
            match es, h with
            | [.Float64, .Float64], _ => rfl
            | [], h => simp [DataType.equals, DataType.equalsElems] at h
            | [_], h => simp [DataType.equals, DataType.equalsElems] at h
            | .Array _ :: _ :: _, h => simp [DataType.equals, DataType.equalsElems] at h
            | .Tuple _ :: _ :: _, h => simp [DataType.equals, DataType.equalsElems] at h
            | .Other _ :: _ :: _, h => simp [DataType.equals, DataType.equalsElems] at h
            | .Float64 :: .Array _ :: _, h => simp [DataType.equals, DataType.equalsElems] at h
            | .Float64 :: .Tuple _ :: _, h => simp [DataType.equals, DataType.equalsElems] at h
            | .Float64 :: .Other _ :: _, h => simp [DataType.equals, DataType.equalsElems] at h
            | .Float64 :: .Float64 :: _ :: _, h => simp [DataType.equals, DataType.equalsElems] at h
          | _ => simp [DataType.equals] at h
        | _ => simp [DataType.equals] at h
      | _ => simp [DataType.equals] at h
    | _ => simp [DataType.equals] at h
  · rintro rfl
    simp [DataType.equals, DataType.equalsElems]

theorem checkInputType_ok_iff {F : Type} (kind : PointKind) (arguments : ColumnsWithTypeAndName F) :
    checkInputType kind arguments = .ok () ↔
      arguments.first.type = desired ∧ arguments.second.type = desired := by
  unfold checkInputType
  by_cases h1 : desired.equals arguments.first.type = true
  · by_cases h2 : desired.equals arguments.second.type = true
    · simp only [h1, h2, Bool.not_true, Bool.false_eq_true, if_false, true_iff]
      exact ⟨(equals_desired_iff _).1 h1, (equals_desired_iff _).1 h2⟩
    · have : arguments.second.type ≠ desired := fun h => h2 ((equals_desired_iff _).2 h)
      simp [h1, h2, this]
  · have : arguments.first.type ≠ desired := fun h => h1 ((equals_desired_iff _).2 h)
    simp [h1, this]

theorem get_container_irrelevant {F : Type} (parser : MultiPolygonFromColumnParser F)
    (c1 c2 : MultiPolygon F) (i : Nat) : get parser c1 i = get parser c2 i := rfl

theorem loopBody_serializer {F : Type} (G : Geometry F)
    (p1 p2 : MultiPolygonFromColumnParser F) (i : Nat) (s : LoopState F) :
    (loopBody G p1 p2 i s).result.map (fun s1 => s1.serializer.rows) =
      (rowEntry G p1 p2 i).map (fun entry => s.serializer.rows ++ [entry]) := by
  unfold loopBody rowEntry unionOf
  rw [get_container_irrelevant p1 s.first_container [], get_container_irrelevant p2 s.second_container []]
  cases get p1 [] i with
  | error e => rfl
  | ok a =>
    cases get p2 [] i with
    | error e => rfl
    | ok b =>
      simp only []
      cases G.union_ (G.correct a) (G.correct b) [placeholder G] with
      | error what => rfl
      | ok u =>
        cases u with
        | nil => rfl
        | cons hd tl => rfl

theorem forLoop_rows {F : Type} (G : Geometry F)
    (p1 p2 : MultiPolygonFromColumnParser F) (remaining : Nat) :
    ∀ (i : Nat) (s : LoopState F),
      (forLoop G p1 p2 remaining i s).result.map (fun s1 => s1.serializer.rows) =
        (rowsFrom G p1 p2 remaining i).map (fun entries => s.serializer.rows ++ entries) := by
  induction remaining with
  | zero => intro i s; simp [forLoop, rowsFrom, Except.map]
  | succ k ih =>
    intro i s
    have hbody := loopBody_serializer G p1 p2 i s
    unfold forLoop rowsFrom
    rcases hb : loopBody G p1 p2 i s with ⟨calls, result⟩
    rw [hb] at hbody
    cases result with
    | error e =>
      cases hr : rowEntry G p1 p2 i with
      | error e1 =>
        rw [hr] at hbody
        simp only [Except.map] at hbody ⊢
        exact hbody
      | ok entry =>
        rw [hr] at hbody
        simp [Except.map] at hbody
    | ok s1 =>
      cases hr : rowEntry G p1 p2 i with
      | error e1 =>
        rw [hr] at hbody
        simp [Except.map] at hbody
      | ok entry =>
        rw [hr] at hbody
        simp only [Except.map, Except.ok.injEq] at hbody
        simp only []
        rw [ih (i + 1) s1, hbody]
        cases rowsFrom G p1 p2 k (i + 1) with
        | error e2 => rfl
        | ok entries => simp [Except.map]

theorem rowEntry_ok_iff {F : Type} (G : Geometry F)
    (p1 p2 : MultiPolygonFromColumnParser F) (i : Nat) (entry : Row F) :
    rowEntry G p1 p2 i = .ok entry ↔
      ∃ A B, p1.col[i]? = some A ∧ p2.col[i]? = some B ∧ rowPipeline G A B = .ok entry := by
  unfold rowEntry rowPipeline get
  cases h1 : p1.col[i]? with
  | none => simp
  | some A =>
    cases h2 : p2.col[i]? with
    | none =>
      simp only []
      cases decode A <;> simp
    | some B =>
      simp only [Option.some.injEq, exists_and_left, exists_eq_left']

theorem rowsFrom_ok_iff {F : Type} (G : Geometry F)
    (p1 p2 : MultiPolygonFromColumnParser F) (remaining : Nat) :
    ∀ (i : Nat) (out : List (Row F)),
      rowsFrom G p1 p2 remaining i = .ok out ↔
        out.length = remaining ∧
          ∀ j, j < remaining → ∃ entry, rowEntry G p1 p2 (i + j) = .ok entry ∧ out[j]? = some entry := by
  induction remaining with
  | zero =>
    intro i out
    simp [rowsFrom]
  | succ k ih =>
    intro i out
    unfold rowsFrom
    cases hr : rowEntry G p1 p2 i with
    | error e =>
      simp only [false_iff, not_and, not_forall, reduceCtorEq]
      intro _
      refine ⟨0, Nat.succ_pos k, ?_⟩
      simp [hr]
    | ok entry =>
      cases hrest : rowsFrom G p1 p2 k (i + 1) with
      | error e =>
        simp only [false_iff, not_and, reduceCtorEq]
        intro hlen hall
        cases out with
        | nil => simp at hlen
        | cons hd tl =>
          have : rowsFrom G p1 p2 k (i + 1) = .ok tl := by
            rw [ih]
            refine ⟨by simpa using hlen, fun j hj => ?_⟩
            obtain ⟨e1, he1, hget⟩ := hall (j + 1) (Nat.succ_lt_succ hj)
            refine ⟨e1, ?_, by simpa using hget⟩
            rw [← he1]; congr 1; omega
          rw [hrest] at this
          cases this
      | ok entries =>
        simp only [Except.ok.injEq]
        have hih := (ih (i + 1) entries).1 hrest
        constructor
        · rintro rfl
          refine ⟨by simp [hih.1], fun j hj => ?_⟩
          cases j with
          | zero => exact ⟨entry, by simpa using hr, by simp⟩
          | succ j =>
            obtain ⟨e1, he1, hget⟩ := hih.2 j (Nat.lt_of_succ_lt_succ hj)
            refine ⟨e1, ?_, by simpa using hget⟩
            rw [← he1]; congr 1; omega
        · rintro ⟨hlen, hall⟩
          cases out with
          | nil => simp at hlen
          | cons hd tl =>
            have htl : rowsFrom G p1 p2 k (i + 1) = .ok tl := by
              rw [ih]
              refine ⟨by simpa using hlen, fun j hj => ?_⟩
              obtain ⟨e1, he1, hget⟩ := hall (j + 1) (Nat.succ_lt_succ hj)
              refine ⟨e1, ?_, by simpa using hget⟩
              rw [← he1]; congr 1; omega
            rw [hrest] at htl
            obtain ⟨e0, he0, hget0⟩ := hall 0 (Nat.succ_pos k)
            simp only [Nat.add_zero, hr, Except.ok.injEq] at he0
            simp only [List.getElem?_cons_zero, Option.some.injEq] at hget0
            cases htl
            rw [he0, hget0]

theorem executeImpl_result {F : Type} (kind : PointKind) (G : Geometry F)
    (arguments : ColumnsWithTypeAndName F) (n : Nat)
    (hcheck : checkInputType kind arguments = .ok ()) :
    (executeImpl kind G arguments n).result =
      rowsFrom G ⟨arguments.first.column⟩ ⟨arguments.second.column⟩ n 0 := by
  have hloop := forLoop_rows G ⟨arguments.first.column⟩ ⟨arguments.second.column⟩ n 0
    ⟨[], [], ⟨[]⟩⟩
  unfold executeImpl
  rw [hcheck]
  simp only [makeGeometryFromColumnParser, createContainer]
  rcases hf : forLoop G ⟨arguments.first.column⟩ ⟨arguments.second.column⟩ n 0
      ⟨[], [], ⟨[]⟩⟩ with ⟨calls, result⟩
  rw [hf] at hloop
  cases result with
  | error e =>
    cases hr : rowsFrom G ⟨arguments.first.column⟩ ⟨arguments.second.column⟩ n 0 with
    | error e1 => rw [hr] at hloop; simpa [Except.map] using hloop
    | ok out => rw [hr] at hloop; simp [Except.map] at hloop
  | ok s =>
    cases hr : rowsFrom G ⟨arguments.first.column⟩ ⟨arguments.second.column⟩ n 0 with
    | error e1 => rw [hr] at hloop; simp [Except.map] at hloop
    | ok out =>
      rw [hr] at hloop
      simpa [Except.map, MultiPolygonSerializer.finalize] using hloop

theorem executeImpl_error_of_check {F : Type} (kind : PointKind) (G : Geometry F)
    (arguments : ColumnsWithTypeAndName F) (n : Nat) (e : Fault)
    (hcheck : checkInputType kind arguments = .error e) :
    executeImpl kind G arguments n = ⟨[], .error e⟩ := by
  unfold executeImpl
  rw [hcheck]

theorem executeImpl_ok_iff {F : Type} (kind : PointKind) (G : Geometry F)
    (arguments : ColumnsWithTypeAndName F) (n : Nat) (out : List (Row F)) :
    (executeImpl kind G arguments n).result = .ok out ↔
      (arguments.first.type = desired ∧ arguments.second.type = desired) ∧
      out.length = n ∧
      ∀ i, i < n → ∃ A B entry, arguments.first.column[i]? = some A ∧
        arguments.second.column[i]? = some B ∧ rowPipeline G A B = .ok entry ∧
        out[i]? = some entry := by
  cases hcheck : checkInputType kind arguments with
  | error e =>
    rw [executeImpl_error_of_check kind G arguments n e hcheck]
    have : ¬ (arguments.first.type = desired ∧ arguments.second.type = desired) := by
      rw [← checkInputType_ok_iff kind, hcheck]; simp
    simp [this]
  | ok u =>
    have hok := (checkInputType_ok_iff kind arguments).1 hcheck
    rw [executeImpl_result kind G arguments n hcheck, rowsFrom_ok_iff]
    simp only [hok, and_self, true_and, Nat.zero_add]
    constructor
    · rintro ⟨hlen, hall⟩
      refine ⟨hlen, fun i hi => ?_⟩
      obtain ⟨entry, he, hget⟩ := hall i hi
      obtain ⟨A, B, hA, hB, hp⟩ := (rowEntry_ok_iff G _ _ i entry).1 he
      exact ⟨A, B, entry, hA, hB, hp, hget⟩
    · rintro ⟨hlen, hall⟩
      refine ⟨hlen, fun i hi => ?_⟩
      obtain ⟨A, B, entry, hA, hB, hp, hget⟩ := hall i hi
      exact ⟨entry, (rowEntry_ok_iff G _ _ i entry).2 ⟨A, B, hA, hB, hp⟩, hget⟩

theorem rowsFrom_total {F : Type} (G : Geometry F)
    (p1 p2 : MultiPolygonFromColumnParser F) (remaining : Nat) :
    ∀ (i : Nat), (∀ j, j < remaining → ∃ entry, rowEntry G p1 p2 (i + j) = .ok entry) →
      ∃ out, rowsFrom G p1 p2 remaining i = .ok out := by
  induction remaining with
  | zero => intro i _; exact ⟨[], rfl⟩
  | succ k ih =>
    intro i hall
    obtain ⟨entry, he⟩ := hall 0 (Nat.succ_pos k)
    obtain ⟨entries, hes⟩ := ih (i + 1) (fun j hj => by
      obtain ⟨e1, he1⟩ := hall (j + 1) (Nat.succ_lt_succ hj)
      exact ⟨e1, by rw [← he1]; congr 1; omega⟩)
    refine ⟨entry :: entries, ?_⟩
    simp only [Nat.add_zero] at he
    simp [rowsFrom, he, hes]

theorem rowsFrom_error {F : Type} (G : Geometry F)
    (p1 p2 : MultiPolygonFromColumnParser F) (remaining : Nat) :
    ∀ (i : Nat) (e : Fault), rowsFrom G p1 p2 remaining i = .error e →
      ∃ j, j < remaining ∧ rowEntry G p1 p2 (i + j) = .error e := by
  induction remaining with
  | zero => intro i e h; simp [rowsFrom] at h
  | succ k ih =>
    intro i e h
    unfold rowsFrom at h
    cases hr : rowEntry G p1 p2 i with
    | error e1 =>
      rw [hr] at h
      simp only [Except.error.injEq] at h
      exact ⟨0, Nat.succ_pos k, by simpa [h] using hr⟩
    | ok entry =>
      rw [hr] at h
      cases hrest : rowsFrom G p1 p2 k (i + 1) with
      | error e2 =>
        rw [hrest] at h
        simp only [Except.error.injEq] at h
        obtain ⟨j, hj, hje⟩ := ih (i + 1) e2 hrest
        refine ⟨j + 1, Nat.succ_lt_succ hj, ?_⟩
        rw [← h, ← hje]; congr 1; omega
      | ok entries => rw [hrest] at h; simp at h

theorem decode_ne_eraseOnEmpty {F : Type} (row : Row F) :
    decode row ≠ .error .eraseOnEmpty := by
  induction row with
  | nil => simp [decode]
  | cons rings rest ih =>
    unfold decode
    cases rings with
    | nil => simp [decodePolygon]
    | cons outer inners =>
      simp only [decodePolygon]
      cases hd : decode rest with
      | error e =>
        simp only [ne_eq, Except.error.injEq]
        rintro rfl
        exact ih hd
      | ok polygons => simp

theorem get_ne_eraseOnEmpty {F : Type} (parser : MultiPolygonFromColumnParser F)
    (container : MultiPolygon F) (i : Nat) :
    get parser container i ≠ .error .eraseOnEmpty := by
  unfold get
  cases parser.col[i]? with
  | none => simp
  | some row => exact decode_ne_eraseOnEmpty row

theorem loopBody_ok {F : Type} (G : Geometry F)
    (p1 p2 : MultiPolygonFromColumnParser F) (i : Nat) (s s1 : LoopState F)
    (h : (loopBody G p1 p2 i s).result = .ok s1) :
    ∃ a b u r, get p1 s.first_container i = .ok a ∧ get p2 s.second_container i = .ok b ∧
      G.union_ (G.correct a) (G.correct b) [placeholder G] = .ok u ∧ eraseBegin u = .ok r ∧
      loopBody G p1 p2 i s = ⟨rowCalls i, .ok ⟨a, b, s.serializer.add r⟩⟩ := by
  cases h1 : get p1 s.first_container i with
  | error e => simp [loopBody, h1] at h
  | ok a =>
    cases h2 : get p2 s.second_container i with
    | error e => simp [loopBody, h1, h2] at h
    | ok b =>
      cases h3 : G.union_ (G.correct a) (G.correct b) [placeholder G] with
      | error what => simp [loopBody, h1, h2, h3] at h
      | ok u =>
        cases h4 : eraseBegin u with
        | error e => simp [loopBody, h1, h2, h3, h4] at h
        | ok r =>
          refine ⟨a, b, u, r, rfl, rfl, h3, h4, ?_⟩
          simp [loopBody, h1, h2, h3, h4]

theorem loopBody_calls {F : Type} (G : Geometry F)
    (p1 p2 : MultiPolygonFromColumnParser F) (i : Nat) (s s1 : LoopState F)
    (h : (loopBody G p1 p2 i s).result = .ok s1) :
    (loopBody G p1 p2 i s).calls = rowCalls i := by
  obtain ⟨a, b, u, r, _, _, _, _, hb⟩ := loopBody_ok G p1 p2 i s s1 h
  rw [hb]

theorem forLoop_calls {F : Type} (G : Geometry F)
    (p1 p2 : MultiPolygonFromColumnParser F) (remaining : Nat) :
    ∀ (i : Nat) (s s1 : LoopState F), (forLoop G p1 p2 remaining i s).result = .ok s1 →
      (forLoop G p1 p2 remaining i s).calls = (List.range' i remaining).flatMap rowCalls := by
  induction remaining with
  | zero => intro i s s1 _; simp [forLoop]
  | succ k ih =>
    intro i s s1 h
    have hc := loopBody_calls G p1 p2 i s
    unfold forLoop at h ⊢
    rcases hb : loopBody G p1 p2 i s with ⟨calls, result⟩
    rw [hb] at h hc
    cases result with
    | error e => simp at h
    | ok s2 =>
      simp only [] at h ⊢
      have hc2 : calls = rowCalls i := hc s2 rfl
      rw [ih (i + 1) s2 s1 h, hc2]
      simp [List.range'_succ]

theorem executeImpl_calls {F : Type} (kind : PointKind) (G : Geometry F)
    (arguments : ColumnsWithTypeAndName F) (n : Nat) (out : List (Row F))
    (h : (executeImpl kind G arguments n).result = .ok out) :
    (executeImpl kind G arguments n).calls = (List.range n).flatMap rowCalls := by
  cases hcheck : checkInputType kind arguments with
  | error e => rw [executeImpl_error_of_check kind G arguments n e hcheck] at h; simp at h
  | ok u =>
    have hc := forLoop_calls G ⟨arguments.first.column⟩ ⟨arguments.second.column⟩ n 0
      ⟨[], [], ⟨[]⟩⟩
    rcases hf : forLoop G ⟨arguments.first.column⟩ ⟨arguments.second.column⟩ n 0
      ⟨[], [], ⟨[]⟩⟩ with ⟨calls, result⟩
    rw [hf] at hc
    cases result with
    | error e =>
      simp [executeImpl, hcheck, makeGeometryFromColumnParser, createContainer, hf] at h
    | ok s =>
      have hc2 : calls = (List.range' 0 n).flatMap rowCalls := hc s rfl
      simp [executeImpl, hcheck, makeGeometryFromColumnParser, createContainer, hf, hc2,
        List.range_eq_range']

theorem executeImpl_total {F : Type} (kind : PointKind) (G : Geometry F)
    (arguments : ColumnsWithTypeAndName F) (n : Nat)
    (h1 : arguments.first.type = desired) (h2 : arguments.second.type = desired)
    (hrows : ∀ i, i < n → ∃ A B entry, arguments.first.column[i]? = some A ∧
      arguments.second.column[i]? = some B ∧ rowPipeline G A B = .ok entry) :
    ∃ out, (executeImpl kind G arguments n).result = .ok out := by
  have hcheck := (checkInputType_ok_iff kind arguments).2 ⟨h1, h2⟩
  rw [executeImpl_result kind G arguments n hcheck]
  apply rowsFrom_total
  intro j hj
  obtain ⟨A, B, entry, hA, hB, hp⟩ := hrows j hj
  refine ⟨entry, (rowEntry_ok_iff G _ _ _ entry).2 ⟨A, B, ?_, ?_, hp⟩⟩
  · simpa using hA
  · simpa using hB

theorem rowPipeline_ok_iff {F : Type} (G : Geometry F) (A B : Row F) (entry : Row F) :
    rowPipeline G A B = .ok entry ↔
      ∃ a b u r, decode A = .ok a ∧ decode B = .ok b ∧
        G.union_ (G.correct a) (G.correct b) [placeholder G] = .ok u ∧
        eraseBegin u = .ok r ∧ entry = encode r := by
  unfold rowPipeline unionOf
  cases decode A with
  | error e => simp
  | ok a =>
    cases decode B with
    | error e => simp
    | ok b =>
      simp only [Except.ok.injEq, exists_and_left, exists_eq_left']
      cases G.union_ (G.correct a) (G.correct b) [placeholder G] with
      | error what => simp
      | ok u =>
        simp only [Except.ok.injEq, exists_eq_left']
        cases eraseBegin u with
        | error e => simp
        | ok r => simp [eq_comm]

theorem checkInputType_first_mismatch {F : Type} (kind : PointKind)
    (arguments : ColumnsWithTypeAndName F) (h : arguments.first.type ≠ desired) :
    checkInputType kind arguments =
      .error (.exception (messageHead "first" ++ name kind ++ messageTail) .BAD_ARGUMENTS) := by
  have e1 : desired.equals arguments.first.type = false := by
    cases hb : desired.equals arguments.first.type with
    | false => rfl
    | true => exact absurd ((equals_desired_iff _).1 hb) h
  simp [checkInputType, e1]

theorem checkInputType_second_mismatch {F : Type} (kind : PointKind)
    (arguments : ColumnsWithTypeAndName F) (h1 : arguments.first.type = desired)
    (h2 : arguments.second.type ≠ desired) :
    checkInputType kind arguments =
      .error (.exception (messageHead "second" ++ name kind ++ messageTail) .BAD_ARGUMENTS) := by
  have e1 : desired.equals arguments.first.type = true := (equals_desired_iff _).2 h1
  have e2 : desired.equals arguments.second.type = false := by
    cases hb : desired.equals arguments.second.type with
    | false => rfl
    | true => exact absurd ((equals_desired_iff _).1 hb) h2
  simp [checkInputType, e1, e2]

theorem appendEngine_keeps (first second out u : MultiPolygon Int)
    (h : appendEngine.union_ first second out = .ok u) : out.length ≤ u.length := by
  simp only [appendEngine, Except.ok.injEq] at h
  subst h
  simp

/-- C1: type validation rejects exactly the mismatching calls, before any row is processed.
If the declared type of the first or of the second argument is not
`Array(Array(Array(Tuple(Float64, Float64))))`, then `executeImpl` fails with a
`BAD_ARGUMENTS` exception and its call log is empty (no row was decoded, unioned or
serialized), for every `input_rows_count`; if both types are equal to it, `checkInputType`
does not raise. -/
theorem executeImpl_rejects_mismatch {F : Type} (kind : PointKind) (G : Geometry F)
    (arguments : ColumnsWithTypeAndName F) (input_rows_count : Nat) :
    ((arguments.first.type ≠ desired ∨ arguments.second.type ≠ desired) →
      ∃ message, executeImpl kind G arguments input_rows_count =
        ⟨[], .error (.exception message .BAD_ARGUMENTS)⟩) ∧
    ((arguments.first.type = desired ∧ arguments.second.type = desired) →
      checkInputType kind arguments = .ok ()) := by
  refine ⟨fun hbad => ?_, fun hgood => (checkInputType_ok_iff kind arguments).2 hgood⟩
  by_cases h1 : arguments.first.type = desired
  · have h2 : arguments.second.type ≠ desired := hbad.resolve_left (fun h => h h1)
    exact ⟨_, executeImpl_error_of_check kind G arguments input_rows_count _
      (checkInputType_second_mismatch kind arguments h1 h2)⟩
  · exact ⟨_, executeImpl_error_of_check kind G arguments input_rows_count _
      (checkInputType_first_mismatch kind arguments h1)⟩

/-- Witness of C1: a batch whose first argument is declared `Array(Float64)` is rejected with
an empty call log, and a well-typed batch passes `checkInputType`. -/
theorem executeImpl_rejects_mismatch_witness :
    (∃ message, executeImpl .CartesianPoint appendEngine badBatch 2 =
      ⟨[], .error (.exception message .BAD_ARGUMENTS)⟩) ∧
    checkInputType .GeographicPoint goodBatch = .ok () :=
  ⟨(executeImpl_rejects_mismatch .CartesianPoint appendEngine badBatch 2).1
      (Or.inl (by simp [badBatch, desired])),
    (executeImpl_rejects_mismatch .GeographicPoint appendEngine goodBatch 0).2 ⟨rfl, rfl⟩⟩

/-- C2: for well-typed input columns and a row count `n` on which no row fails,
`executeImpl` returns an output column with exactly `n` entries, and for every `i < n` the
entry `i` of the output is the result of the row pipeline on entry `i` of the first column
and entry `i` of the second column. -/
theorem executeImpl_one_result_per_row {F : Type} (kind : PointKind) (G : Geometry F)
    (arguments : ColumnsWithTypeAndName F) (n : Nat)
    (h1 : arguments.first.type = desired) (h2 : arguments.second.type = desired)
    (hrows : ∀ i, i < n → ∃ A B entry, arguments.first.column[i]? = some A ∧
      arguments.second.column[i]? = some B ∧ rowPipeline G A B = .ok entry) :
    ∃ out, (executeImpl kind G arguments n).result = .ok out ∧ out.length = n ∧
      ∀ i, i < n → ∃ A B entry, arguments.first.column[i]? = some A ∧
        arguments.second.column[i]? = some B ∧ rowPipeline G A B = .ok entry ∧
        out[i]? = some entry := by
  obtain ⟨out, hout⟩ := executeImpl_total kind G arguments n h1 h2 hrows
  obtain ⟨_, hlen, hall⟩ := (executeImpl_ok_iff kind G arguments n out).1 hout
  exact ⟨out, hout, hlen, hall⟩

/-- Witness of C2: the two-row batch `goodBatch` under the appending engine. -/
theorem executeImpl_one_result_per_row_witness :
    ∃ out, (executeImpl .CartesianPoint appendEngine goodBatch 2).result = .ok out ∧
      out.length = 2 ∧
      ∀ i, i < 2 → ∃ A B entry, goodBatch.first.column[i]? = some A ∧
        goodBatch.second.column[i]? = some B ∧ rowPipeline appendEngine A B = .ok entry ∧
        out[i]? = some entry :=
  executeImpl_one_result_per_row .CartesianPoint appendEngine goodBatch 2 rfl rfl
    (fun i hi => by
      interval_cases i
      · exact ⟨square, farSquare, _, rfl, rfl, rfl⟩
      · exact ⟨[], square, _, rfl, rfl, rfl⟩)

/-- C3: each row's result is a function of that row's two input geometries only. For two
successful runs on any two batches (of any lengths) and row indices `i`, `j` such that row `i`
of the first batch and row `j` of the second hold the same pair `(A, B)`, entry `i` of the
first output and entry `j` of the second output are the same, namely the row pipeline's
result on `(A, B)`: the containers and the serializer reused across iterations carry nothing
from earlier rows into it. -/
theorem executeImpl_row_pure {F : Type} (kind : PointKind) (G : Geometry F)
    (arguments arguments1 : ColumnsWithTypeAndName F) (n n1 : Nat) (out out1 : List (Row F))
    (i j : Nat) (A B : Row F)
    (hrun : (executeImpl kind G arguments n).result = .ok out)
    (hrun1 : (executeImpl kind G arguments1 n1).result = .ok out1)
    (hi : i < n) (hj : j < n1)
    (hA : arguments.first.column[i]? = some A) (hB : arguments.second.column[i]? = some B)
    (hA1 : arguments1.first.column[j]? = some A) (hB1 : arguments1.second.column[j]? = some B) :
    ∃ entry, rowPipeline G A B = .ok entry ∧ out[i]? = some entry ∧ out1[j]? = some entry := by
  obtain ⟨_, _, hall⟩ := (executeImpl_ok_iff kind G arguments n out).1 hrun
  obtain ⟨_, _, hall1⟩ := (executeImpl_ok_iff kind G arguments1 n1 out1).1 hrun1
  obtain ⟨A2, B2, entry, hA2, hB2, hp, hget⟩ := hall i hi
  obtain ⟨A3, B3, entry1, hA3, hB3, hp1, hget1⟩ := hall1 j hj
  rw [hA] at hA2; rw [hB] at hB2; rw [hA1] at hA3; rw [hB1] at hB3
  cases hA2; cases hB2; cases hA3; cases hB3
  rw [hp] at hp1
  cases hp1
  exact ⟨entry, hp, hget, hget1⟩

/-- Witness of C3: row 1 of `goodBatch` and row 0 of a one-row batch hold the same pair. -/
theorem executeImpl_row_pure_witness :
    ∃ entry, rowPipeline appendEngine [] square = .ok entry ∧
      ([[[[(0, 0), (2, 0), (2, 2), (0, 2), (0, 0)]], [[(10, 10), (12, 10), (12, 12), (10, 12), (10, 10)]]],
        square] : List (Row Int))[1]? = some entry ∧
      ([square] : List (Row Int))[0]? = some entry :=
  executeImpl_row_pure .CartesianPoint appendEngine goodBatch
    ⟨geoColumn [[]], geoColumn [square]⟩ 2 1 _ _ 1 0 [] square rfl rfl
    (by decide) (by decide) rfl rfl rfl rfl

/-- C4: in a successful run every row's entry is obtained by decoding `A` and `B`, applying
`correct` to each of the two decoded operands, calling `union_` on the two corrected operands
in the order (first, second) with the seeded output collection, erasing the placeholder, and
encoding; and the run performed, for every row in order, exactly the calls
get, get, correct, correct, union, erase, add, so that no step is skipped or applied to one
operand only. -/
theorem executeImpl_pipeline {F : Type} (kind : PointKind) (G : Geometry F)
    (arguments : ColumnsWithTypeAndName F) (n : Nat) (out : List (Row F))
    (hrun : (executeImpl kind G arguments n).result = .ok out) :
    (∀ i, i < n → ∃ A B a b u r, arguments.first.column[i]? = some A ∧
      arguments.second.column[i]? = some B ∧ decode A = .ok a ∧ decode B = .ok b ∧
      G.union_ (G.correct a) (G.correct b) [placeholder G] = .ok u ∧
      eraseBegin u = .ok r ∧ out[i]? = some (encode r)) ∧
    (executeImpl kind G arguments n).calls = (List.range n).flatMap rowCalls := by
  refine ⟨fun i hi => ?_, executeImpl_calls kind G arguments n out hrun⟩
  obtain ⟨_, _, hall⟩ := (executeImpl_ok_iff kind G arguments n out).1 hrun
  obtain ⟨A, B, entry, hA, hB, hp, hget⟩ := hall i hi
  obtain ⟨a, b, u, r, ha, hb, hu, hr, he⟩ := (rowPipeline_ok_iff G A B entry).1 hp
  exact ⟨A, B, a, b, u, r, hA, hB, ha, hb, hu, hr, he ▸ hget⟩

/-- Witness of C4: the run of `goodBatch` under the appending engine. -/
theorem executeImpl_pipeline_witness :
    (∀ i, i < 2 → ∃ A B a b u r, goodBatch.first.column[i]? = some A ∧
      goodBatch.second.column[i]? = some B ∧ decode A = .ok a ∧ decode B = .ok b ∧
      appendEngine.union_ (appendEngine.correct a) (appendEngine.correct b)
        [placeholder appendEngine] = .ok u ∧
      eraseBegin u = .ok r ∧
      ([[[[(0, 0), (2, 0), (2, 2), (0, 2), (0, 0)]], [[(10, 10), (12, 10), (12, 12), (10, 12), (10, 10)]]],
        square] : List (Row Int))[i]? = some (encode r)) ∧
    (executeImpl .CartesianPoint appendEngine goodBatch 2).calls =
      (List.range 2).flatMap rowCalls :=
  executeImpl_pipeline .CartesianPoint appendEngine goodBatch 2 _ rfl

/-- C5: no extraneous leading polygon reaches the serializer. In any iteration of the loop,
if both rows decode and the union engine returns the seeded output collection with its
polygons `produced` appended after the placeholder, then the iteration hands exactly
`produced` to the serializer: same polygons, same order, placeholder absent. -/
theorem loopBody_serializes_engine_output {F : Type} (G : Geometry F)
    (firstParser secondParser : MultiPolygonFromColumnParser F) (i : Nat) (s : LoopState F)
    (a b produced : MultiPolygon F)
    (ha : get firstParser s.first_container i = .ok a)
    (hb : get secondParser s.second_container i = .ok b)
    (hengine : G.union_ (G.correct a) (G.correct b) [placeholder G] =
      .ok ([placeholder G] ++ produced)) :
    loopBody G firstParser secondParser i s =
      ⟨rowCalls i, .ok ⟨a, b, s.serializer.add produced⟩⟩ := by
  simp only [List.singleton_append] at hengine
  simp [loopBody, ha, hb, hengine, eraseBegin]

/-- Witness of C5: row 0 of `goodBatch`, where the appending engine produces both squares. -/
theorem loopBody_serializes_engine_output_witness :
    loopBody appendEngine ⟨[square, []]⟩ ⟨[farSquare, square]⟩ 0 ⟨[], [], ⟨[]⟩⟩ =
      ⟨rowCalls 0, .ok ⟨squarePolygons, farSquarePolygons,
        (⟨[]⟩ : MultiPolygonSerializer Int).add (squarePolygons ++ farSquarePolygons)⟩⟩ :=
  loopBody_serializes_engine_output appendEngine ⟨[square, []]⟩ ⟨[farSquare, square]⟩ 0
    ⟨[], [], ⟨[]⟩⟩ squarePolygons farSquarePolygons (squarePolygons ++ farSquarePolygons)
    rfl rfl rfl

/-- C8, the claim fails: for the argument types `UInt8` and the expected type, of which the
first is not the expected type, `getReturnTypeImpl` raises nothing and returns the result
type. -/
theorem getReturnTypeImpl_accepts_mismatch :
    DataType.Other "UInt8" ≠ desired ∧
    getReturnTypeImpl [.Other "UInt8", desired] = .ok nestedDataType ∧
    ¬ ∃ e, getReturnTypeImpl [.Other "UInt8", desired] = .error e := by
  refine ⟨by simp [desired], rfl, ?_⟩
  rintro ⟨e, he⟩
  simp [getReturnTypeImpl] at he

/-- C8, amended: `getReturnTypeImpl` raises for no argument types and returns the
multi-polygon type; a call in which the first or the second argument type is not the expected
type is rejected on entry to `executeImpl`, whose first step `checkInputType` raises
`BAD_ARGUMENTS` before any row is processed (empty call log), failing the whole call. -/
theorem mismatch_raised_on_entry {F : Type} (kind : PointKind) (G : Geometry F)
    (arguments : ColumnsWithTypeAndName F) (input_rows_count : Nat)
    (hbad : arguments.first.type ≠ desired ∨ arguments.second.type ≠ desired) :
    getReturnTypeImpl [arguments.first.type, arguments.second.type] = .ok nestedDataType ∧
    (∃ message, checkInputType kind arguments = .error (.exception message .BAD_ARGUMENTS) ∧
      executeImpl kind G arguments input_rows_count =
        ⟨[], .error (.exception message .BAD_ARGUMENTS)⟩) := by
  refine ⟨rfl, ?_⟩
  by_cases h1 : arguments.first.type = desired
  · have h2 : arguments.second.type ≠ desired := hbad.resolve_left (fun h => h h1)
    exact ⟨_, checkInputType_second_mismatch kind arguments h1 h2,
      executeImpl_error_of_check kind G arguments input_rows_count _
        (checkInputType_second_mismatch kind arguments h1 h2)⟩
  · exact ⟨_, checkInputType_first_mismatch kind arguments h1,
      executeImpl_error_of_check kind G arguments input_rows_count _
        (checkInputType_first_mismatch kind arguments h1)⟩

/-- Witness of C8 amended: the batch whose second argument is declared `UInt8`. -/
theorem mismatch_raised_on_entry_witness :
    getReturnTypeImpl [badSecondBatch.first.type, badSecondBatch.second.type] =
      .ok nestedDataType ∧
    (∃ message,
      checkInputType .GeographicPoint badSecondBatch =
        .error (.exception message .BAD_ARGUMENTS) ∧
      executeImpl .GeographicPoint appendEngine badSecondBatch 2 =
        ⟨[], .error (.exception message .BAD_ARGUMENTS)⟩) :=
  mismatch_raised_on_entry .GeographicPoint appendEngine badSecondBatch 2
    (Or.inr (by simp [badSecondBatch, desired]))

/-- C9: the placeholder discard is safe and removes exactly one element. Provided the union
engine never returns an output collection shorter than the one it was given: no run ends in
an erase on an empty vector; and in every iteration in which both rows decode and the engine
returns `u`, the collection `u` is not empty, the erase succeeds, and the multi-polygon handed
to the serializer has exactly one polygon fewer than `u`. -/
theorem erase_is_safe {F : Type} (G : Geometry F)
    (hkeep : ∀ first second out u, G.union_ first second out = .ok u → out.length ≤ u.length) :
    (∀ (kind : PointKind) (arguments : ColumnsWithTypeAndName F) (n : Nat),
      (executeImpl kind G arguments n).result ≠ .error .eraseOnEmpty) ∧
    (∀ (firstParser secondParser : MultiPolygonFromColumnParser F) (i : Nat)
      (s : LoopState F) (a b u : MultiPolygon F),
      get firstParser s.first_container i = .ok a →
      get secondParser s.second_container i = .ok b →
      G.union_ (G.correct a) (G.correct b) [placeholder G] = .ok u →
      u ≠ [] ∧ ∃ r, eraseBegin u = .ok r ∧ r.length + 1 = u.length ∧
        loopBody G firstParser secondParser i s =
          ⟨rowCalls i, .ok ⟨a, b, s.serializer.add r⟩⟩) := by
  constructor
  · intro kind arguments n hres
    cases hcheck : checkInputType kind arguments with
    | error e =>
      rw [executeImpl_error_of_check kind G arguments n e hcheck] at hres
      simp only [Except.error.injEq] at hres
      subst hres
      unfold checkInputType at hcheck
      split at hcheck
      · simp at hcheck
      · split at hcheck <;> simp at hcheck
    | ok _ =>
      rw [executeImpl_result kind G arguments n hcheck] at hres
      obtain ⟨j, _, hj⟩ := rowsFrom_error G _ _ n 0 _ hres
      unfold rowEntry at hj
      cases h1 : get (⟨arguments.first.column⟩ : MultiPolygonFromColumnParser F) [] (0 + j) with
      | error e =>
        rw [h1] at hj
        simp only [Except.error.injEq] at hj
        exact get_ne_eraseOnEmpty _ _ _ (hj ▸ h1)
      | ok a =>
        rw [h1] at hj
        cases h2 : get (⟨arguments.second.column⟩ : MultiPolygonFromColumnParser F) [] (0 + j) with
        | error e =>
          rw [h2] at hj
          simp only [Except.error.injEq] at hj
          exact get_ne_eraseOnEmpty _ _ _ (hj ▸ h2)
        | ok b =>
          rw [h2] at hj
          simp only [unionOf] at hj
          cases h3 : G.union_ (G.correct a) (G.correct b) [placeholder G] with
          | error what => rw [h3] at hj; simp at hj
          | ok u =>
            rw [h3] at hj
            have hlen := hkeep _ _ _ _ h3
            cases u with
            | nil => simp at hlen
            | cons hd tl => simp [eraseBegin] at hj
  · intro p1 p2 i s a b u ha hb hu
    have hlen := hkeep _ _ _ _ hu
    cases u with
    | nil => simp at hlen
    | cons hd tl =>
      refine ⟨by simp, tl, rfl, by simp, ?_⟩
      simp [loopBody, ha, hb, hu, eraseBegin]

/-- Witness of C9: the appending engine never shortens the output collection; the run of
`goodBatch` and its iteration on row 0. -/
theorem erase_is_safe_witness :
    (executeImpl .CartesianPoint appendEngine goodBatch 2).result ≠ .error .eraseOnEmpty ∧
    ([placeholder appendEngine] ++ (squarePolygons ++ farSquarePolygons) ≠ [] ∧
      ∃ r, eraseBegin ([placeholder appendEngine] ++ (squarePolygons ++ farSquarePolygons)) =
          .ok r ∧
        r.length + 1 =
          ([placeholder appendEngine] ++ (squarePolygons ++ farSquarePolygons)).length ∧
        loopBody appendEngine ⟨[square, []]⟩ ⟨[farSquare, square]⟩ 0 ⟨[], [], ⟨[]⟩⟩ =
          ⟨rowCalls 0, .ok ⟨squarePolygons, farSquarePolygons,
            (⟨[]⟩ : MultiPolygonSerializer Int).add r⟩⟩) :=
  ⟨(erase_is_safe appendEngine appendEngine_keeps).1 .CartesianPoint goodBatch 2,
    (erase_is_safe appendEngine appendEngine_keeps).2 ⟨[square, []]⟩ ⟨[farSquare, square]⟩ 0
      ⟨[], [], ⟨[]⟩⟩ squarePolygons farSquarePolygons
      ([placeholder appendEngine] ++ (squarePolygons ++ farSquarePolygons)) rfl rfl rfl⟩

/-- C10: argument types are validated in argument order and the first failure wins. A
mismatching first argument type raises `BAD_ARGUMENTS` with the message naming the first
argument, whatever the second type is; the message naming the second argument is raised
exactly when the first type matches and the second does not; both messages hold the
registered name of the instantiation, `polygonsUnionCartesian` or `polygonsUnionGeographic`. -/
theorem checkInputType_first_failure_wins {F : Type} (kind : PointKind)
    (arguments : ColumnsWithTypeAndName F) :
    (arguments.first.type ≠ desired →
      checkInputType kind arguments = .error (.exception
        ("The type of the first argument of function " ++ name kind ++
          " must be Array(Array(Array(Tuple(Float64, Float64))))") .BAD_ARGUMENTS)) ∧
    (checkInputType kind arguments = .error (.exception
        ("The type of the second argument of function " ++ name kind ++
          " must be Array(Array(Array(Tuple(Float64, Float64))))") .BAD_ARGUMENTS) ↔
      arguments.first.type = desired ∧ arguments.second.type ≠ desired) ∧
    name .CartesianPoint = "polygonsUnionCartesian" ∧
    name .GeographicPoint = "polygonsUnionGeographic" := by
  refine ⟨fun h => checkInputType_first_mismatch kind arguments h, ⟨fun h => ?_, fun h => ?_⟩,
    rfl, rfl⟩
  · by_cases h1 : arguments.first.type = desired
    · refine ⟨h1, fun h2 => ?_⟩
      rw [(checkInputType_ok_iff kind arguments).2 ⟨h1, h2⟩] at h
      simp at h
    · rw [checkInputType_first_mismatch kind arguments h1] at h
      simp only [Except.error.injEq, Fault.exception.injEq, and_true] at h
      cases kind <;> exact absurd h (by decide)
  · exact checkInputType_second_mismatch kind arguments h.1 h.2

/-- Witness of C10: one batch failing on its first type, one failing on its second only. -/
theorem checkInputType_first_failure_wins_witness :
    checkInputType .CartesianPoint badBatch = .error (.exception
      ("The type of the first argument of function " ++ name .CartesianPoint ++
        " must be Array(Array(Array(Tuple(Float64, Float64))))") .BAD_ARGUMENTS) ∧
    checkInputType .GeographicPoint badSecondBatch = .error (.exception
      ("The type of the second argument of function " ++ name .GeographicPoint ++
        " must be Array(Array(Array(Tuple(Float64, Float64))))") .BAD_ARGUMENTS) :=
  ⟨(checkInputType_first_failure_wins .CartesianPoint badBatch).1
      (by simp [badBatch, desired]),
    (checkInputType_first_failure_wins .GeographicPoint badSecondBatch).2.1.2
      ⟨rfl, by simp [badSecondBatch, desired]⟩⟩

end DB
